import Mathlib
/-!
Verification of the context-aggregation core of the fantasy-waiver-tool
repository, as a shallow embedding in Lean 4.

Numbers of the JavaScript/TypeScript source are modelled as exact rationals
(`ℚ`): the source only performs field arithmetic, comparisons and decimal
rounding on values far from the limits of IEEE doubles, so the rational
model tracks it faithfully; `Number.isFinite` guards of the source are
noted where they are trivially true in this model.

The embedded components are:
  * the generic TTL cache (`createCache` in `server/index.js`),
  * the defense-ranking refresher (`refreshDefenseRanks`),
  * the defense-ranking schema normalizer (`server/logic/defense-ranks.js`),
  * the CSV line splitter (`splitCsvLine`),
  * the market context resolver (`parseVegasForCompetition` /
    `buildTeamContexts`),
  * the player matcher (`rankPlayerMatches`),
  * the composite scoring engine (`calcScore` of the client page).
-/
/-! ### JavaScript value model -/
/-- A JSON-like JavaScript value.  `jnum` carries an exact rational; the
non-finite `NaN`/`Infinity` results of JS coercions are represented by the
surrounding code as `Option` failures where they matter. -/
inductive JVal where
  | jnull : JVal
  | jbool : Bool → JVal
  | jnum  : ℚ → JVal
  | jstr  : String → JVal
  | jobj  : List (String × JVal) → JVal
  | jarr  : List JVal → JVal
/-- JS truthiness: `null`, `false`, `0`, `""` are falsy; objects and arrays
are always truthy. -/
def truthy : JVal → Bool
  | JVal.jnull => false
  | JVal.jbool b => b
  | JVal.jnum q => q != 0
  | JVal.jstr s => s != ""
  | JVal.jobj _ => true
  | JVal.jarr _ => true
/-! ### Decimal rounding (`Number.prototype.toFixed`)

`toFixed` strips the sign first and then picks the closest scaled integer,
preferring the larger one at ties, i.e. it rounds half away from zero. -/
/-- Round a rational to the nearest integer, half away from zero, as the
scaled core of JS `toFixed`. -/
def jsRoundInt (q : ℚ) : ℤ :=
  if q < 0 then -⌊-q + 1/2⌋ else ⌊q + 1/2⌋
/-- Embeds `Number(x.toFixed(1))`: round to one decimal place, ties away from
zero. -/
def jsToFixed1 (q : ℚ) : ℚ := (jsRoundInt (10 * q) : ℚ) / 10
/-- Embeds `Math.min(Math.max(value, min), max)` — the `clamp` helper of the
client page (src/unnamed/part_001, line 524). -/
def clamp (value lo hi : ℚ) : ℚ := min (max value lo) hi
/-! ### Generic freshness-bounded cache (`createCache`, `server/index.js`)

```js
const createCache = (ttlMs = 5 * 60 * 1000) => {
  let value = null;
  let expiresAt = 0;
  return {
    async get(loader) {
      if (value && expiresAt > Date.now()) { return value; }
      value = await loader();
      expiresAt = Date.now() + ttlMs;
      return value;
    },
    reset() { value = null; expiresAt = 0; }
  };
};
```
The closure state is the pair `(value, expiresAt)`; a `get` call is a pure
step given the current clock and the outcome of the loader.  When the
loader rejects, the exception propagates before either assignment runs, so
the state is left untouched. -/
structure CacheState where
  value : JVal
  expiresAt : ℤ
/-- The state of a freshly created (or `reset`) cache. -/
def cacheInit : CacheState := { value := JVal.jnull, expiresAt := 0 }
/-- One `get(loader)` call at clock `now`.  `loadResult` is the outcome the
loader would produce if invoked.  Returns the call result, the new closure
state, and whether the loader was invoked. -/
def cacheGet (ttlMs : ℤ) (st : CacheState) (now : ℤ)
    (loadResult : Except String JVal) :
    Except String JVal × CacheState × Bool :=
  if truthy st.value ∧ st.expiresAt > now then
    (Except.ok st.value, st, false)
  else
    match loadResult with
    | Except.ok v => (Except.ok v, { value := v, expiresAt := now + ttlMs }, true)
    | Except.error e => (Except.error e, st, true)
/-! ### Defense-ranking refresher (`refreshDefenseRanks`, src/unnamed/part_003)

The module keeps `defenseRanks` and `lastDefenseRefresh` as module state;
`refreshDefenseRanks` only replaces them after a fully successful load and
normalization, and the `/api/defense-rankings` endpoint always serves the
current `defenseRanks`. -/
structure DefenseRankEntry where
  teamAbbr : String
  overall : ℚ
  QB : ℚ
  RB : ℚ
  WR : ℚ
  TE : ℚ
deriving DecidableEq, Repr
structure DefenseState where
  defenseRanks : List DefenseRankEntry
  lastDefenseRefresh : ℤ
deriving DecidableEq, Repr
/-- One `refreshDefenseRanks(force)` call at clock `now`.
`source` is `DEFENSE_RANKINGS_SOURCE` (trimmed, `none` when unconfigured);
`fetchResult` is the outcome `loadDefenseRankSource` would produce, and
`normalize` abstracts `buildDefenseRanksFromRaw` applied to the raw text.
Returns the new module state and the boolean the function returns. -/
def refreshDefenseRanks (st : DefenseState) (force : Bool) (now refreshMs : ℤ)
    (source : Option String)
    (fetchResult : Except String String)
    (normalize : String → List DefenseRankEntry) :
    DefenseState × Bool :=
  let shouldRefresh := force || decide (now - st.lastDefenseRefresh > refreshMs)
  if !shouldRefresh then (st, false)
  else
    match source with
    | none => (st, false)
    | some _ =>
      match fetchResult with
      | Except.error _ => (st, false)
      | Except.ok raw =>
        if raw = "" then (st, false)  -- `if (!raw) throw ...`
        else
          let ranks := normalize raw
          if ranks.isEmpty then (st, false)  -- `if (!ranks.length) throw ...`
          else ({ defenseRanks := ranks, lastDefenseRefresh := now }, true)
/-- The `/api/defense-rankings` endpoint serves the module-level list
unconditionally. -/
def servedDefenseRanks (st : DefenseState) : List DefenseRankEntry :=
  st.defenseRanks
/-! ### String and number coercion helpers -/
/-- Embeds `String.prototype.toLowerCase` (ASCII range, which covers every key and
team code the sources emit). -/
def strLower (s : String) : String := String.mk (s.data.map Char.toLower)
/-- Embeds `String.prototype.toUpperCase` (ASCII range). -/
def strUpper (s : String) : String := String.mk (s.data.map Char.toUpper)
/-- Embeds `String.prototype.trim` on the character list. -/
def trimList (l : List Char) : List Char :=
  ((l.dropWhile Char.isWhitespace).reverse.dropWhile Char.isWhitespace).reverse
/-- Embeds `String.prototype.trim`. -/
def trimStr (s : String) : String := String.mk (trimList s.data)
def digitVal (c : Char) : ℕ := c.toNat - '0'.toNat
def natOfDigits (l : List Char) : ℕ :=
  l.foldl (fun n c => 10 * n + digitVal c) 0
/-- Longest-prefix decimal literal `digits [. digits]` or `. digits`,
with the value it denotes.  This is the decimal core shared by JS
`parseFloat` and `Number` (exponent and hex forms are not exercised by any
payload field of this repository and are left out). -/
def parsePrefixDec (l : List Char) : Option ℚ :=
  let intPart := l.takeWhile Char.isDigit
  let rest1 := l.dropWhile Char.isDigit
  match rest1 with
  | '.' :: r =>
    let frac := r.takeWhile Char.isDigit
    if intPart.isEmpty && frac.isEmpty then none
    else some ((natOfDigits intPart : ℚ) + (natOfDigits frac : ℚ) / 10 ^ frac.length)
  | _ => if intPart.isEmpty then none else some (natOfDigits intPart : ℚ)
/-- JS `parseFloat`: skip leading whitespace, parse the longest numeric
prefix, `NaN` (here `none`) when there is none. -/
def parseFloatQ (s : String) : Option ℚ :=
  match s.data.dropWhile Char.isWhitespace with
  | '-' :: rest => (parsePrefixDec rest).map (fun q => -q)
  | '+' :: rest => parsePrefixDec rest
  | l => parsePrefixDec l
/-- JS `Number` on a string: whole-string conversion after trimming;
the empty (or all-whitespace) string converts to `0`. -/
def numQ (s : String) : Option ℚ :=
  let t := trimList s.data
  let whole : List Char → Option ℚ := fun l =>
    let intPart := l.takeWhile Char.isDigit
    let rest1 := l.dropWhile Char.isDigit
    match rest1 with
    | [] => if intPart.isEmpty then none else some (natOfDigits intPart : ℚ)
    | '.' :: frac =>
      if frac.all Char.isDigit && !(intPart.isEmpty && frac.isEmpty) then
        some ((natOfDigits intPart : ℚ) + (natOfDigits frac : ℚ) / 10 ^ frac.length)
      else none
    | _ => none
  match t with
  | [] => some 0
  | '-' :: rest => (whole rest).map (fun q => -q)
  | '+' :: rest => whole rest
  | l => whole l
/-- JS `Number` coercion of a JSON value (`none` = `NaN`).  Arrays are
approximated by `NaN`; no rank or weight field of the repository carries an
array. -/
def jsNumber : JVal → Option ℚ
  | JVal.jnull => some 0
  | JVal.jbool b => some (if b then 1 else 0)
  | JVal.jnum q => some q
  | JVal.jstr s => numQ s
  | JVal.jobj _ => none
  | JVal.jarr _ => none
/-! ### Schema normalizer (`server/logic/defense-ranks.js`) -/
def DEFAULT_DEFENSE_RANK : ℚ := 16
structure PosWeights where
  QB : ℚ
  RB : ℚ
  WR : ℚ
  TE : ℚ
deriving DecidableEq, Repr
def DEFAULT_WEIGHTS : PosWeights :=
  { QB := 2/10, RB := 4/10, WR := 3/10, TE := 1/10 }
/-- Embeds `parseWeight`: a configured value is used when it converts to a finite
non-negative number, otherwise the fallback. -/
def parseWeight (value : Option String) (fallback : ℚ) : ℚ :=
  match value with
  | none => fallback
  | some s =>
    match numQ s with
    | some q => if 0 ≤ q then q else fallback
    | none => fallback
/-- Embeds `resolveDefenseWeights`: read the four `DEFENSE_WEIGHT_*` variables
from the environment and normalize them to sum to 1; all-zero (or missing)
configuration falls back to the default split. -/
def resolveDefenseWeights (env : String → Option String) : PosWeights :=
  let qb := parseWeight (env "DEFENSE_WEIGHT_QB") DEFAULT_WEIGHTS.QB
  let rb := parseWeight (env "DEFENSE_WEIGHT_RB") DEFAULT_WEIGHTS.RB
  let wr := parseWeight (env "DEFENSE_WEIGHT_WR") DEFAULT_WEIGHTS.WR
  let te := parseWeight (env "DEFENSE_WEIGHT_TE") DEFAULT_WEIGHTS.TE
  let total := qb + rb + wr + te
  if total ≤ 0 then DEFAULT_WEIGHTS
  else { QB := qb / total, RB := rb / total, WR := wr / total, TE := te / total }
/-- Embeds `cachedWeights` as computed once at module load; the deployment under
verification has no `DEFENSE_WEIGHT_*` overrides configured. -/
def cachedWeights : PosWeights := resolveDefenseWeights (fun _ => none)
/-- Embeds `weightedOverall`: weight-normalized mean of the positional ranks.
Its callers only pass the already-resolved positional ranks, which are
finite rationals here, so all four positions contribute; an all-zero
weight total falls back to the neutral rank. -/
def weightedOverall (w : PosWeights) (qb rb wr te : ℚ) : ℚ :=
  let sum := qb * w.QB + rb * w.RB + wr * w.WR + te * w.TE
  let totalWeight := w.QB + w.RB + w.WR + w.TE
  if totalWeight > 0 then sum / totalWeight else DEFAULT_DEFENSE_RANK
/-- First-match key lookup in a JS object literal (keys are unique). -/
def jlookup (fields : List (String × JVal)) (key : String) : Option JVal :=
  (fields.find? (fun f => f.1 == key)).map (fun f => f.2)
/-- Lookup through the lower-cased key map of `pickValue`: built with
`Map.set` over the keys in order, so a later key wins on collision. -/
def jlookupLower (fields : List (String × JVal)) (lowerKey : String) : Option JVal :=
  (fields.reverse.find? (fun f => strLower f.1 == lowerKey)).map (fun f => f.2)
/-- The `value !== undefined && value !== null && value !== ""` test of
`pickValue` (an absent key never reaches this test). -/
def presentVal : JVal → Bool
  | JVal.jnull => false
  | JVal.jstr s => s != ""
  | _ => true
/-- Embeds `pickValue`: probe the candidate keys in order, first exactly and then
case-insensitively, skipping empty-ish values. -/
def pickValue (fields : List (String × JVal)) : List String → Option JVal
  | [] => none
  | k :: ks =>
    let exact : Option JVal :=
      match jlookup fields k with
      | some v => if presentVal v then some v else none
      | none => none
    match exact with
    | some v => some v
    | none =>
      match jlookupLower fields (strLower k) with
      | some v => if presentVal v then some v else pickValue fields ks
      | none => pickValue fields ks
def TEAM_KEYS : List String :=
  ["teamAbbr", "team_abbr", "team", "abbr", "teamAbbreviation",
   "team_abbreviation", "teamAbbrev", "team_abbrev", "teamShort", "shortName"]
/-- Embeds `pickTeamAbbr`: the team code from the direct alias probe, from a
nested object under it, or from a nested object under `team`. -/
def pickTeamAbbr (item : List (String × JVal)) : Option String :=
  let step3 : Option String :=
    match jlookup item "team" with
    | some (JVal.jobj tf) =>
      match pickValue tf ["abbr", "abbreviation", "teamAbbr", "team_abbr"] with
      | some (JVal.jstr s) => if trimStr s != "" then some (trimStr s) else none
      | _ => none
    | _ => none
  match pickValue item TEAM_KEYS with
  | some (JVal.jstr s) => if trimStr s != "" then some (trimStr s) else step3
  | some (JVal.jobj df) =>
    (match pickValue df ["abbr", "abbreviation", "team", "teamAbbr", "team_abbr"] with
     | some (JVal.jstr s) => if trimStr s != "" then some (trimStr s) else step3
     | _ => step3)
  | _ => step3
/-- Embeds `pickRankNumber` with the `NaN` fallback: first key whose value
converts to a finite number (an empty-after-trim string is forced to
`NaN` before conversion). -/
def pickRankOpt (item : List (String × JVal)) : List String → Option ℚ
  | [] => none
  | k :: ks =>
    match jlookup item k with
    | none => pickRankOpt item ks
    | some (JVal.jstr s) =>
      if trimStr s = "" then pickRankOpt item ks
      else
        match numQ s with
        | some q => some q
        | none => pickRankOpt item ks
    | some v =>
      match jsNumber v with
      | some q => some q
      | none => pickRankOpt item ks
/-- Embeds `pickRankNumber` with a finite fallback. -/
def pickRank (item : List (String × JVal)) (keys : List String) (fallback : ℚ) : ℚ :=
  (pickRankOpt item keys).getD fallback
def RANK_KEYS_overall : List String :=
  ["overall", "overallRank", "overall_rank", "rank", "rankOverall", "rank_overall", "ovr"]
def RANK_KEYS_qb : List String := ["QB", "qb", "qbRank", "rankQB", "rank_qb"]
def RANK_KEYS_rb : List String := ["RB", "rb", "rbRank", "rankRB", "rank_rb"]
def RANK_KEYS_wr : List String := ["WR", "wr", "wrRank", "rankWR", "rank_wr"]
def RANK_KEYS_te : List String := ["TE", "te", "teRank", "rankTE", "rank_te"]
/-- The per-record body of `normalizeDefenseRanks`: `null` (dropped) when
no team code resolves, otherwise the canonical entry, computing `overall`
from the positional ranks when no overall key resolves. -/
def normalizeDefenseRow (item : List (String × JVal)) : Option DefenseRankEntry :=
  match pickTeamAbbr item with
  | none => none
  | some teamAbbr =>
    let qb := pickRank item RANK_KEYS_qb DEFAULT_DEFENSE_RANK
    let rb := pickRank item RANK_KEYS_rb DEFAULT_DEFENSE_RANK
    let wr := pickRank item RANK_KEYS_wr DEFAULT_DEFENSE_RANK
    let te := pickRank item RANK_KEYS_te DEFAULT_DEFENSE_RANK
    let overall :=
      match pickRankOpt item RANK_KEYS_overall with
      | some q => q
      | none => weightedOverall cachedWeights qb rb wr te
    some { teamAbbr := strUpper teamAbbr, overall := overall,
           QB := qb, RB := rb, WR := wr, TE := te }
/-- Stable insertion of an earlier entry into the already-sorted later
entries: placed before any entry of equal `overall`, matching the stable
ascending `sort((a, b) => a.overall - b.overall)`. -/
def insertAscByOverall (e : DefenseRankEntry) :
    List DefenseRankEntry → List DefenseRankEntry
  | [] => [e]
  | x :: xs =>
    if x.overall < e.overall then x :: insertAscByOverall e xs
    else e :: x :: xs
/-- Stable ascending sort by `overall` (toughest defense first). -/
def sortByOverall : List DefenseRankEntry → List DefenseRankEntry
  | [] => []
  | e :: es => insertAscByOverall e (sortByOverall es)
/-- Embeds `coerceArray` on an object payload: the first conventional wrapper key
holding an array. -/
def firstArrayUnder (fields : List (String × JVal)) : List String → List JVal
  | [] => []
  | k :: ks =>
    match jlookup fields k with
    | some (JVal.jarr l) => l
    | _ => firstArrayUnder fields ks
def ARRAY_CANDIDATE_KEYS : List String := ["data", "results", "ranks", "rankings", "list"]
/-- Embeds `coerceArray`: an array payload itself, or the array under one of the
conventional wrapper keys, or nothing. -/
def coerceArray (payload : JVal) : List JVal :=
  if truthy payload = false then []
  else
    match payload with
    | JVal.jarr l => l
    | JVal.jobj fields => firstArrayUnder fields ARRAY_CANDIDATE_KEYS
    | _ => []
/-- The fields of a row object.  A non-object row is modelled as an empty
record (resolving no team code); in JS such a row would make the `in`
probe of `pickValue` throw, a case no payload of the repository reaches. -/
def rowFields : JVal → List (String × JVal)
  | JVal.jobj f => f
  | _ => []
/-- Embeds `normalizeDefenseRanks` from the coerced row list on: map, drop the
unresolvable records, sort ascending by `overall`. -/
def normalizeDefenseRows (rows : List (List (String × JVal))) :
    List DefenseRankEntry :=
  sortByOverall (rows.filterMap normalizeDefenseRow)
/-- Embeds `normalizeDefenseRanks` on an already-decoded payload (string payloads
are first decoded by `coercePayload` — `JSON.parse`, falling back to the
CSV parser — into exactly such a value). -/
def normalizeDefenseRanks (payload : JVal) : List DefenseRankEntry :=
  normalizeDefenseRows ((coerceArray payload).map rowFields)
/-! ### CSV line splitter (`splitCsvLine`, `server/logic/defense-ranks.js`)

The JS loop walks the line once with an `inQuotes` flag and a one-character
lookahead for the `""` escape.  The lookahead is folded into a third mode
(`afterQuote`: a quote was just read while quoted) so that the recursion
consumes one character per step. -/
inductive CsvMode where
  | plain : CsvMode
  | quoted : CsvMode
  | afterQuote : CsvMode
deriving DecidableEq, Repr
def trimS (cur : List Char) : String := String.mk (trimList cur)
/-- One pass of the `splitCsvLine` loop. -/
def csvAux : List Char → List Char → CsvMode → List String
  | [], cur, _ => [trimS cur]
  | c :: rest, cur, CsvMode.plain =>
    if c = '"' then csvAux rest cur CsvMode.quoted
    else if c = ',' then trimS cur :: csvAux rest [] CsvMode.plain
    else csvAux rest (cur ++ [c]) CsvMode.plain
  | c :: rest, cur, CsvMode.quoted =>
    if c = '"' then csvAux rest cur CsvMode.afterQuote
    else csvAux rest (cur ++ [c]) CsvMode.quoted
  | c :: rest, cur, CsvMode.afterQuote =>
    if c = '"' then csvAux rest (cur ++ ['"']) CsvMode.quoted
    else if c = ',' then trimS cur :: csvAux rest [] CsvMode.plain
    else csvAux rest (cur ++ [c]) CsvMode.plain
/-- Embeds `splitCsvLine`: split a CSV line on top-level commas, honouring quoted
fields and the `""` escape, trimming each field. -/
def splitCsvLine (line : String) : List String :=
  csvAux line.data [] CsvMode.plain
/-! ### Market context resolver (src/unnamed/part_003)

`parseVegasForCompetition` reads one scoreboard competition; each local
`const` of the source is embedded as a named function of the competition so
that the parsed record's fields stay readable.  The source computes the
odds fields before locating the home/away competitors and returns `null`
when either is missing; both steps are pure, so the competitor lookup is
hoisted without changing the function's value. -/
structure Competitor where
  homeAway : String
  abbreviation : Option String
deriving DecidableEq, Repr
structure Venue where
  fullName : Option String
  name : Option String
deriving DecidableEq, Repr
/-- One odds block: `overUnder` as delivered (any JSON value; `Number` is
applied to it), `details` and `spread` when present with the right type. -/
structure OddsBlock where
  overUnder : Option JVal
  details : Option String
  spread : Option ℚ
/-- Embeds `comp.odds?.[0] || {}` for a missing block. -/
def emptyOdds : OddsBlock := { overUnder := none, details := none, spread := none }
structure Competition where
  competitors : List Competitor
  odds : List OddsBlock
  date : Option String
  venue : Option Venue
  broadcastNames : List (List String)
structure Event where
  competitions : List Competition
  date : Option String
/-- Embeds `x || y || ... || null` over string expressions: the first truthy
(present and non-empty) one. -/
def firstTruthyStr : List (Option String) → Option String
  | [] => none
  | none :: rest => firstTruthyStr rest
  | some x :: rest => if x != "" then some x else firstTruthyStr rest
/-- Embeds `(odds.details || "").split(" ").filter(Boolean)`: split on single
spaces, drop empty tokens. -/
def splitTokensAux : List Char → List Char → List String
  | [], cur => [String.mk cur.reverse]
  | c :: rest, cur =>
    if c = ' ' then String.mk cur.reverse :: splitTokensAux rest []
    else splitTokensAux rest (c :: cur)
def splitTokens (s : String) : List String :=
  (splitTokensAux s.data []).filter (fun t => t != "")
/-- Embeds `comp.odds?.[0] || {}`. -/
def vegasOdds (comp : Competition) : OddsBlock := comp.odds.head?.getD emptyOdds
/-- Embeds `Number.isFinite(parsedTotal) ? parsedTotal : 45` with
`parsedTotal = Number(odds.overUnder)`: a missing or non-numeric total
defaults to the league-average 45. -/
def vegasTotal (comp : Competition) : ℚ :=
  match (vegasOdds comp).overUnder with
  | none => 45
  | some v => (jsNumber v).getD 45
def vegasDetailTokens (comp : Competition) : List String :=
  splitTokens ((vegasOdds comp).details.getD "")
/-- Embeds `detailTokens[0]?.toUpperCase()`. -/
def vegasFavoredToken (comp : Competition) : Option String :=
  (vegasDetailTokens comp).head?.map strUpper
/-- Embeds `detailSpread`: `parseFloat(detailTokens[1] ?? detailTokens[len-1])`,
falling back to a numeric `odds.spread`, and finally to 0. -/
def vegasDetailSpread (comp : Competition) : ℚ :=
  let tok : Option String :=
    match (vegasDetailTokens comp).get? 1 with
    | some t => some t
    | none => (vegasDetailTokens comp).getLast?
  match tok.bind parseFloatQ with
  | some q => q
  | none =>
    match (vegasOdds comp).spread with
    | some q => q
    | none => 0
/-- The signed home spread of the four-way assignment (home favored →
negative; an unmatched favored token also defaults to home favored).  The
away spread is its exact negation in every branch of the source, the
no-spread branch included.  The `favoredToken && absSpread` guard: a
parsed token is never the empty string, so its truthiness is its
presence. -/
def vegasSignedSpread (comp : Competition) (home away : Competitor) : ℚ :=
  let absSpread := |vegasDetailSpread comp|
  match vegasFavoredToken comp with
  | none => 0
  | some ft =>
    if absSpread = 0 then 0
    else if home.abbreviation.map strUpper = some ft then -absSpread
    else if away.abbreviation.map strUpper = some ft then absSpread
    else -absSpread
structure VegasSide where
  abbr : Option String
  implied : Option ℚ
  spread : ℚ
deriving DecidableEq, Repr
structure VegasInfo where
  total : ℚ
  spread : ℚ
  kickoff : Option String
  venue : Option String
  broadcast : Option String
  home : VegasSide
  away : VegasSide
deriving DecidableEq, Repr
/-- The record `parseVegasForCompetition` returns once both competitors
are found.  `Number.isFinite(impliedHome)` is always true over exact
rationals, so `implied` is always populated. -/
def mkVegas (comp : Competition) (home away : Competitor) : VegasInfo :=
  { total := vegasTotal comp
    spread := jsToFixed1 (vegasDetailSpread comp)
    kickoff := firstTruthyStr [comp.date]
    venue := firstTruthyStr
      [comp.venue.bind (fun v => v.fullName), comp.venue.bind (fun v => v.name)]
    broadcast := firstTruthyStr [comp.broadcastNames.head?.bind (fun n => n.head?)]
    home := { abbr := home.abbreviation.map strUpper
              implied := some (jsToFixed1
                (vegasTotal comp / 2 - vegasSignedSpread comp home away / 2))
              spread := jsToFixed1 (vegasSignedSpread comp home away) }
    away := { abbr := away.abbreviation.map strUpper
              implied := some (jsToFixed1
                (vegasTotal comp / 2 + vegasSignedSpread comp home away / 2))
              spread := jsToFixed1 (-vegasSignedSpread comp home away) } }
/-- Embeds `parseVegasForCompetition(comp)`: `null` without competitors or when
the home or away competitor is missing, the parsed record otherwise. -/
def parseVegasForCompetition (c : Option Competition) : Option VegasInfo :=
  match c with
  | none => none
  | some comp =>
    if comp.competitors.isEmpty then none
    else
      match comp.competitors.find? (fun x => x.homeAway == "home"),
            comp.competitors.find? (fun x => x.homeAway == "away") with
      | some home, some away => some (mkVegas comp home away)
      | _, _ => none
structure MarketContext where
  team : String
  opponent : String
  impliedTotal : Option ℚ
  opponentImpliedTotal : Option ℚ
  overUnder : ℚ
  spread : ℚ
  opponentSpread : ℚ
  kickoff : Option String
  venue : Option String
  broadcast : Option String
deriving DecidableEq, Repr
/-- The `pushContext(team, opponent)` record. -/
def mkContext (v : VegasInfo) (evDate : Option String) (team opp : VegasSide)
    (teamAbbr oppAbbr : String) : MarketContext :=
  { team := teamAbbr
    opponent := oppAbbr
    impliedTotal := team.implied
    opponentImpliedTotal := opp.implied
    overUnder := jsToFixed1 v.total
    spread := team.spread
    opponentSpread := opp.spread
    kickoff := firstTruthyStr [v.kickoff, evDate]
    venue := v.venue
    broadcast := v.broadcast }
/-- Embeds `buildTeamContexts(scoreboard)`: one context per team of each parsable
game, keyed by team code.  The JS object is modelled as a stack of
bindings in which the most recent assignment shadows older ones; a game is
skipped when it does not parse or when either team code is missing or
empty. -/
def buildTeamContexts (events : List Event) : List (String × MarketContext) :=
  events.foldl
    (fun ctxs ev =>
      match parseVegasForCompetition ev.competitions.head? with
      | none => ctxs
      | some v =>
        match v.home.abbr, v.away.abbr with
        | some h, some a =>
          if h != "" && a != "" then
            (a, mkContext v ev.date v.away v.home a h) ::
              (h, mkContext v ev.date v.home v.away h a) :: ctxs
          else ctxs
        | _, _ => ctxs)
    []
/-- Embeds `contexts[abbr]` lookup. -/
def ctxLookup (ctxs : List (String × MarketContext)) (k : String) :
    Option MarketContext :=
  (ctxs.find? (fun e => e.1 == k)).map (fun e => e.2)
/-! ### Player matcher (`rankPlayerMatches`, src/unnamed/part_003) -/
structure DirEntry where
  id : String
  fullName : String
  team : String
  position : String
  searchKey : String
  lastNameKey : String
deriving DecidableEq, Repr
/-- Embeds `hay.includes(n)`: `n` occurs contiguously in `hay`. -/
def strIncludes (n : List Char) : List Char → Bool
  | [] => n.isEmpty
  | c :: t => if n.isPrefixOf (c :: t) then true else strIncludes n t
/-- Embeds `needle.split(/\s+/).filter(Boolean)`: splitting on every whitespace
character and dropping empty tokens coincides with splitting on
whitespace runs. -/
def splitWsAux : List Char → List Char → List String
  | [], cur => [String.mk cur.reverse]
  | c :: rest, cur =>
    if c.isWhitespace then String.mk cur.reverse :: splitWsAux rest []
    else splitWsAux rest (c :: cur)
def splitWs (s : String) : List String :=
  (splitWsAux s.data []).filter (fun t => t != "")
/-- The per-candidate score of `rankPlayerMatches`: exact full-name match
5, full-name prefix 4, last-name prefix 3, full-name substring 2, any
query token as substring 1, otherwise 0 (excluded). -/
def matchScore (needle : String) (parts : List String) (p : DirEntry) : ℕ :=
  if p.searchKey == needle then 5
  else if needle.data.isPrefixOf p.searchKey.data then 4
  else if needle.data.isPrefixOf p.lastNameKey.data then 3
  else if strIncludes needle.data p.searchKey.data then 2
  else if parts.any (fun part => part != "" && strIncludes part.data p.searchKey.data) then 1
  else 0
/-- The stable descending sort `sort((a, b) => b.score - a.score)` on the
positive scores, which all lie in 1..5: concatenating the score buckets in
decreasing order preserves directory order inside each bucket. -/
def scoreBuckets (scored : List (DirEntry × ℕ)) : List (DirEntry × ℕ) :=
  scored.filter (fun e => e.2 == 5) ++ scored.filter (fun e => e.2 == 4) ++
    scored.filter (fun e => e.2 == 3) ++ scored.filter (fun e => e.2 == 2) ++
    scored.filter (fun e => e.2 == 1)
/-- Embeds `rankPlayerMatches(players, query, limit)`: score every candidate,
drop non-matches, order by descending score (stable) and keep the first
`limit`. -/
def rankPlayerMatches (players : List DirEntry) (query : String) (limit : ℕ) :
    List (DirEntry × ℕ) :=
  (scoreBuckets ((players.map (fun p =>
      (p, matchScore (strLower query) (splitWs (strLower query)) p))).filter
    (fun e => 0 < e.2))).take limit
/-- Embeds `pickBestPlayerMatch`: the single top candidate, if any. -/
def pickBestPlayerMatch (players : List DirEntry) (query : String) :
    Option DirEntry :=
  (rankPlayerMatches players query 1).head?.map (fun e => e.1)
/-- The directory entry `getSleeperPlayers` builds for Patrick Mahomes:
`searchKey` is the lower-cased full name, `lastNameKey` the lower-cased
last name. -/
def patrickMahomesEntry : DirEntry :=
  { id := "4046", fullName := "Patrick Mahomes", team := "KC", position := "QB",
    searchKey := "patrick mahomes", lastNameKey := "mahomes" }
/-! ### Composite scoring engine (`calcScore`, src/unnamed/part_001)

The client page's scoring callback: stats are routed into four buckets by
a first-match-wins keyword table, bucket totals are normalized, clamped
and combined, then the market, matchup and weather adjustments are added,
and the result is clamped to [0, 100] and rounded to one decimal.  The
`!Number.isFinite(val)` and `!Number.isFinite(score)` guards of the source
never fire over exact rationals. -/
inductive Bucket where
  | opportunity : Bucket
  | efficiency : Bucket
  | leverage : Bucket
  | production : Bucket
deriving DecidableEq, Repr
inductive NormMode where
  | percent : NormMode
  | routes : NormMode
  | yards : NormMode
deriving DecidableEq, Repr
structure StatRule where
  keywords : List String
  bucket : Bucket
  weight : ℚ
  normalize : Option NormMode
  transform : Option (ℚ → ℚ)
/-- The `STAT_RULES` table, in source order. -/
def STAT_RULES : List StatRule :=
  [⟨["targets per route run", "tprr"], Bucket.efficiency, 55, some NormMode.percent, none⟩,
   ⟨["yards per route run"], Bucket.efficiency, 8, some NormMode.yards, none⟩,
   ⟨["epa per play"], Bucket.efficiency, 2.5, none, none⟩,
   ⟨["completion %"], Bucket.efficiency, 1.2, some NormMode.percent, none⟩,
   ⟨["pressure rate"], Bucket.efficiency, 2, some NormMode.percent,
     some (fun val => 1 - val)⟩,
   ⟨["yards per attempt"], Bucket.efficiency, 1.8, none, none⟩,
   ⟨["routes"], Bucket.opportunity, 0.12, some NormMode.routes, none⟩,
   ⟨["snap share"], Bucket.opportunity, 0.45, some NormMode.percent, none⟩,
   ⟨["targets (last"], Bucket.opportunity, 0.35, none, none⟩,
   ⟨["catchable targets"], Bucket.efficiency, 0.25, none, none⟩,
   ⟨["adot"], Bucket.efficiency, 0.18, none, none⟩,
   ⟨["air yards"], Bucket.efficiency, 0.06, some NormMode.yards, none⟩,
   ⟨["unrealized air yards"], Bucket.opportunity, 0.04, some NormMode.yards, none⟩,
   ⟨["ez targets"], Bucket.leverage, 0.9, none, none⟩,
   ⟨["red zone"], Bucket.leverage, 0.7, none, none⟩,
   ⟨["3rd/4th"], Bucket.leverage, 0.6, none, none⟩,
   ⟨["play-action"], Bucket.leverage, 0.5, none, none⟩,
   ⟨["fantasy ppg"], Bucket.production, 2.5, none, none⟩,
   ⟨["ppr (last"], Bucket.production, 2.2, none, none⟩,
   ⟨["ppr rank"], Bucket.production, 18, none,
     some (fun val => max 0 (1 - val / 100))⟩]
/-- Embeds `normalizeStatValue` (the non-finite guard is vacuous here). -/
def normalizeStatValue (value : ℚ) (mode : Option NormMode) : ℚ :=
  match mode with
  | some NormMode.percent => if value > 1 then value / 100 else value
  | some NormMode.routes => value / 10
  | some NormMode.yards => value / 10
  | none => value
structure Buckets where
  opportunity : ℚ
  efficiency : ℚ
  leverage : ℚ
  production : ℚ
deriving DecidableEq, Repr
def addToBucket (b : Buckets) (bk : Bucket) (x : ℚ) : Buckets :=
  match bk with
  | Bucket.opportunity => { b with opportunity := b.opportunity + x }
  | Bucket.efficiency => { b with efficiency := b.efficiency + x }
  | Bucket.leverage => { b with leverage := b.leverage + x }
  | Bucket.production => { b with production := b.production + x }
/-- One stat entry: the first rule with a keyword occurring in the
lower-cased stat name wins; unmatched stats are ignored. -/
def applyStat (b : Buckets) (key : String) (val : ℚ) : Buckets :=
  match STAT_RULES.find? (fun r =>
      r.keywords.any (fun kw => strIncludes kw.data (strLower key).data)) with
  | none => b
  | some r =>
    let normalized := normalizeStatValue val r.normalize
    let derived := match r.transform with
      | some f => f normalized
      | none => normalized
    addToBucket b r.bucket (derived * r.weight)
def calcBuckets (stats : List (String × ℚ)) : Buckets :=
  stats.foldl (fun b kv => applyStat b kv.1 kv.2) ⟨0, 0, 0, 0⟩
def BUCKET_WEIGHTS : Bucket → ℚ
  | Bucket.opportunity => 28
  | Bucket.efficiency => 30
  | Bucket.leverage => 20
  | Bucket.production => 26
def BUCKET_NORMALIZERS : Bucket → ℚ
  | Bucket.opportunity => 120
  | Bucket.efficiency => 140
  | Bucket.leverage => 80
  | Bucket.production => 110
/-- Embeds `POSITION_MULTIPLIERS[p.position] ?? 1`. -/
def positionMultiplier (pos : String) : ℚ :=
  match ([("QB", (1.08 : ℚ)), ("RB", 1.04), ("WR", 1), ("TE", 0.92)].find?
      (fun e => e.1 == pos)) with
  | some e => e.2
  | none => 1
/-- First match of `/(\d+)\s*%/` over the weather string, as a one-pass
scanner: a maximal digit run followed by optional whitespace and `%`. -/
inductive RainScan where
  | idle : RainScan
  | run : ℕ → RainScan
  | ws : ℕ → RainScan
def rainAux : List Char → RainScan → Option ℕ
  | [], _ => none
  | c :: rest, RainScan.idle =>
    if c.isDigit then rainAux rest (RainScan.run (digitVal c))
    else rainAux rest RainScan.idle
  | c :: rest, RainScan.run n =>
    if c.isDigit then rainAux rest (RainScan.run (10 * n + digitVal c))
    else if c = '%' then some n
    else if c.isWhitespace then rainAux rest (RainScan.ws n)
    else rainAux rest RainScan.idle
  | c :: rest, RainScan.ws n =>
    if c = '%' then some n
    else if c.isWhitespace then rainAux rest (RainScan.ws n)
    else if c.isDigit then rainAux rest (RainScan.run (digitVal c))
    else rainAux rest RainScan.idle
/-- Embeds `extractRainChance`. -/
def extractRainChance (weather : Option String) : Option ℕ :=
  weather.bind (fun s => rainAux s.data RainScan.idle)
/-- First match of `/(-?\d+)\s*F/i`, as a one-pass scanner. -/
inductive TempScan where
  | idle : TempScan
  | minus : TempScan
  | run : Bool → ℕ → TempScan
  | ws : Bool → ℕ → TempScan
def isFChar (c : Char) : Bool := c = 'F' || c = 'f'
def tempAux : List Char → TempScan → Option ℤ
  | [], _ => none
  | c :: rest, TempScan.idle =>
    if c = '-' then tempAux rest TempScan.minus
    else if c.isDigit then tempAux rest (TempScan.run false (digitVal c))
    else tempAux rest TempScan.idle
  | c :: rest, TempScan.minus =>
    if c.isDigit then tempAux rest (TempScan.run true (digitVal c))
    else if c = '-' then tempAux rest TempScan.minus
    else tempAux rest TempScan.idle
  | c :: rest, TempScan.run neg n =>
    if c.isDigit then tempAux rest (TempScan.run neg (10 * n + digitVal c))
    else if isFChar c then some (if neg then -(n : ℤ) else (n : ℤ))
    else if c.isWhitespace then tempAux rest (TempScan.ws neg n)
    else if c = '-' then tempAux rest TempScan.minus
    else tempAux rest TempScan.idle
  | c :: rest, TempScan.ws neg n =>
    if isFChar c then some (if neg then -(n : ℤ) else (n : ℤ))
    else if c.isWhitespace then tempAux rest (TempScan.ws neg n)
    else if c.isDigit then tempAux rest (TempScan.run false (digitVal c))
    else if c = '-' then tempAux rest TempScan.minus
    else tempAux rest TempScan.idle
/-- Embeds `extractTempF`. -/
def extractTempF (weather : Option String) : Option ℤ :=
  weather.bind (fun s => tempAux s.data TempScan.idle)
/-- The player record as read by `calcScore`: the optional context fields
mirror the `typeof x === "number"` probes of the source. -/
structure ScoredPlayer where
  name : String
  position : String
  impliedTotal : Option ℚ
  overUnder : Option ℚ
  spread : Option ℚ
  defRank : Option ℚ
  weather : Option String
  stats : List (String × ℚ)
inductive ViewMode where
  | week : ViewMode
  | ros : ViewMode
deriving DecidableEq, Repr
def DEFAULT_TEAM_TOTAL : ℚ := 22
def DEFAULT_DEF_RANK : ℚ := 16
/-- Embeds `calcScore`: buckets → base score → position multiplier → additive
market/matchup/weather adjustments → optional rest-of-season blend →
clamp to [0, 100] and round to one decimal. -/
def calcScore (mode : ViewMode) (p : ScoredPlayer) : ℚ :=
  let buckets := calcBuckets p.stats
  let score0 :=
    clamp (buckets.opportunity / BUCKET_NORMALIZERS Bucket.opportunity) 0 1
        * BUCKET_WEIGHTS Bucket.opportunity
      + clamp (buckets.efficiency / BUCKET_NORMALIZERS Bucket.efficiency) 0 1
        * BUCKET_WEIGHTS Bucket.efficiency
      + clamp (buckets.leverage / BUCKET_NORMALIZERS Bucket.leverage) 0 1
        * BUCKET_WEIGHTS Bucket.leverage
      + clamp (buckets.production / BUCKET_NORMALIZERS Bucket.production) 0 1
        * BUCKET_WEIGHTS Bucket.production
  let score1 := score0 * positionMultiplier p.position
  let score2 := match p.impliedTotal with
    | some it => score1 + clamp ((it - DEFAULT_TEAM_TOTAL) / 14) (-1) 1 * 8
    | none => score1
  let score3 := match p.overUnder with
    | some ou => score2 + clamp ((ou - 45) / 15) (-1) 1 * 6
    | none => score2
  let score4 := match p.spread with
    | some sp => score3 + clamp (-sp / 10) (-1) 1 * 5
    | none => score3
  let score5 := match p.defRank with
    | some dr => score4 + clamp ((DEFAULT_DEF_RANK - dr) / 10) (-1) 1 * 6
    | none => score4
  let score6 := match extractRainChance p.weather with
    | some rain => score5 - (if rain > 70 then 6 else if rain > 40 then 3 else 0)
    | none => score5
  let score7 := match extractTempF p.weather with
    | some t => if t < 32 then score6 - 4 else if t > 90 then score6 - 2 else score6
    | none => score6
  let score8 := match mode with
    | ViewMode.ros => score7 * 0.8 + clamp (buckets.production / 80) 0 1 * 20
    | ViewMode.week => score7
  jsToFixed1 (clamp score8 0 100)
/-- All-zero stats over the WR predictive fields, with the default context
(`impliedTotal` defaulted to the team total 22, neutral defensive rank,
no over/under, spread or weather). -/
def baselineAllZeroWR : ScoredPlayer :=
  { name := "Baseline", position := "WR",
    impliedTotal := some 22, overUnder := none, spread := none,
    defRank := some 16, weather := none,
    stats := [("Routes (Last 3)", 0), ("TPRR (Targets per Route Run)", 0),
      ("Targets (Last 3)", 0), ("Catchable Targets (Last 3)", 0),
      ("ADOT (Last 3)", 0), ("Air Yards (Last 3)", 0), ("EZ Targets (Last 3)", 0),
      ("3rd/4th Down Targets (Last 3)", 0), ("Play-Action Targets (Last 3)", 0),
      ("Unrealized Air Yards (Last 3)", 0), ("PPR (Last 3)", 0),
      ("PPR Rank (Last 3)", 0)] }
/-! ### Claims C4, C5, C10 — cache behaviour -/
theorem truthy_jnull : truthy JVal.jnull = false := rfl
/-- C10 counterpart setup: loader succeeding with a falsy value. -/
theorem cacheGet_falsy_reloads (ttl : ℤ) (v : JVal) (t1 t2 : ℤ)
    (hv : truthy v = false) :
    ((cacheGet ttl ((cacheGet ttl cacheInit t1 (Except.ok v)).2.1) t2
        (Except.ok v)).2.2) = true := by
  simp [cacheGet, cacheInit, hv, truthy_jnull]
/-- C10: for every falsy successful loader result (null, 0, "", false),
the liveness test `if (value && expiresAt > Date.now())` treats the stored
entry as absent, so a second `get` within the TTL window invokes the
loader again even though the first load succeeded and stored the value. -/
theorem c10_falsy_value_defeats_cache (ttl : ℤ) (v : JVal) (t1 t2 : ℤ)
    (hv : truthy v = false) (_hwin : t2 < t1 + ttl) :
    -- the first call invokes the loader and stores the value ...
    (cacheGet ttl cacheInit t1 (Except.ok v)).2.1
        = { value := v, expiresAt := t1 + ttl } ∧
    (cacheGet ttl cacheInit t1 (Except.ok v)).2.2 = true ∧
    -- ... yet the second call, still inside the TTL window, invokes it again
    (cacheGet ttl { value := v, expiresAt := t1 + ttl } t2
        (Except.ok v)).2.2 = true := by
  refine ⟨?_, ?_, ?_⟩ <;> simp [cacheGet, cacheInit, hv, truthy_jnull]
/-- Witness for C10 at `null` (a successful JSON `null` payload),
`ttl = 1000`, calls at t=0 and t=1. -/
theorem c10_falsy_value_defeats_cache_witness :
    truthy JVal.jnull = false ∧ (1 : ℤ) < 0 + 1000 ∧
    ((cacheGet 1000 cacheInit 0 (Except.ok JVal.jnull)).2.1
        = { value := JVal.jnull, expiresAt := 0 + 1000 } ∧
      (cacheGet 1000 cacheInit 0 (Except.ok JVal.jnull)).2.2 = true ∧
      (cacheGet 1000 { value := JVal.jnull, expiresAt := 0 + 1000 } 1
        (Except.ok JVal.jnull)).2.2 = true) :=
  ⟨by decide, by decide,
    c10_falsy_value_defeats_cache 1000 JVal.jnull 0 1 (by decide) (by decide)⟩
/-- C4 as stated is false: a loader that succeeds with a falsy value (here
the JSON value `null`) is invoked by both of two `get` calls that fall in
the same TTL window, not exactly once. -/
theorem c4_counterexample :
    (cacheGet 1000 cacheInit 0 (Except.ok JVal.jnull)).2.2 = true ∧
    (cacheGet 1000 ((cacheGet 1000 cacheInit 0 (Except.ok JVal.jnull)).2.1) 1
        (Except.ok JVal.jnull)).2.2 = true := by
  constructor <;> decide
/-- C4 (amended): for every cache created with a TTL and every loader that
succeeds with a truthy value, calling `get` twice within the TTL window
invokes the loader exactly once — the second call returns the stored value
without invoking the loader — and calling `get` again after the TTL has
expired invokes the loader again. -/
theorem c4_cache_ttl_amended (ttl : ℤ) (v w : JVal) (t1 t2 t3 : ℤ)
    (hv : truthy v = true) (hwin : t2 < t1 + ttl) (hexp : t1 + ttl ≤ t3) :
    -- cold cache: first call invokes the loader and stores the value
    (cacheGet ttl cacheInit t1 (Except.ok v)).2.2 = true ∧
    (cacheGet ttl cacheInit t1 (Except.ok v)).2.1
        = { value := v, expiresAt := t1 + ttl } ∧
    -- within the window: served from the store, loader not invoked
    (cacheGet ttl { value := v, expiresAt := t1 + ttl } t2 (Except.ok w))
        = (Except.ok v, { value := v, expiresAt := t1 + ttl }, false) ∧
    -- after expiry: the loader is invoked again
    (cacheGet ttl { value := v, expiresAt := t1 + ttl } t3 (Except.ok w)).2.2
        = true := by
  refine ⟨?_, ?_, ?_, ?_⟩
  · simp [cacheGet, cacheInit, truthy_jnull]
  · simp [cacheGet, cacheInit, truthy_jnull]
  · simp [cacheGet, hv, hwin]
  · have h3 : ¬ ((t1 + ttl : ℤ) > t3) := by omega
    simp [cacheGet, hv, h3]
/-- Witness for the amended C4: ttl 1000, a truthy JSON string payload,
calls at t=0, t=999 and t=1000. -/
theorem c4_cache_ttl_amended_witness :
    truthy (JVal.jstr "data") = true ∧ (999 : ℤ) < 0 + 1000 ∧
      (0 : ℤ) + 1000 ≤ 1000 ∧
    ((cacheGet 1000 cacheInit 0 (Except.ok (JVal.jstr "data"))).2.2 = true ∧
      (cacheGet 1000 cacheInit 0 (Except.ok (JVal.jstr "data"))).2.1
          = { value := JVal.jstr "data", expiresAt := 0 + 1000 } ∧
      (cacheGet 1000 { value := JVal.jstr "data", expiresAt := 0 + 1000 } 999
          (Except.ok (JVal.jstr "more")))
          = (Except.ok (JVal.jstr "data"),
             { value := JVal.jstr "data", expiresAt := 0 + 1000 }, false) ∧
      (cacheGet 1000 { value := JVal.jstr "data", expiresAt := 0 + 1000 } 1000
          (Except.ok (JVal.jstr "more"))).2.2 = true) :=
  ⟨rfl, by decide, by decide,
    c4_cache_ttl_amended 1000 (JVal.jstr "data") (JVal.jstr "more") 0 999 1000
      rfl (by decide) (by decide)⟩
/-- C5 as stated is false for the generic cache: with a previously stored
(truthy, now expired) value, a failing loader call makes `get` propagate
the error instead of serving the stale value — the stale-but-present entry
does not "continue to serve".  The state, however, is left unchanged. -/
theorem c5_counterexample :
    (cacheGet 1000 { value := JVal.jstr "old", expiresAt := 10 } 20
        (Except.error "boom"))
      = (Except.error "boom",
         { value := JVal.jstr "old", expiresAt := 10 }, true) := rfl
/-- C5 (amended): a loader call that fails leaves the cache state — the
previously stored value and its expiry — entirely unchanged: a failed load
neither clears nor extends the existing entry (the generic cache surfaces
the failure to its caller rather than serving the stale value).  The
defense-rankings refresher keeps both its data and its refresh timestamp
unchanged on any failed refresh, so the previously cached rankings continue
to be served until a later successful refresh. -/
theorem c5_failed_load_amended :
    (∀ (ttl : ℤ) (st : CacheState) (now : ℤ) (e : String),
        (cacheGet ttl st now (Except.error e)).2.1 = st) ∧
    (∀ (st : DefenseState) (force : Bool) (now refreshMs : ℤ)
        (source : Option String) (e : String)
        (normalize : String → List DefenseRankEntry),
        (refreshDefenseRanks st force now refreshMs source
            (Except.error e) normalize).1 = st ∧
        servedDefenseRanks (refreshDefenseRanks st force now refreshMs source
            (Except.error e) normalize).1 = servedDefenseRanks st) := by
  constructor
  · intro ttl st now e
    by_cases h : truthy st.value ∧ st.expiresAt > now <;>
      simp [cacheGet, h]
  · intro st force now refreshMs source e normalize
    have hst : (refreshDefenseRanks st force now refreshMs source
        (Except.error e) normalize).1 = st := by
      unfold refreshDefenseRanks
      cases hb : (force || decide (now - st.lastDefenseRefresh > refreshMs)) <;>
        cases source <;> simp [hb]
    exact ⟨hst, by rw [hst]⟩
/-! ### Claims C2, C8, C9 — schema normalizer -/
/-- C2: normalizing a record with a resolvable team code, no resolvable
overall rank, and positional ranks QB=10, RB=20, WR=5, TE=30 under the
default weights (QB 0.20 / RB 0.40 / WR 0.30 / TE 0.10) yields
`overall = 14.5`, the weight-normalized mean of the four positional ranks
(weights summing to 1). -/
theorem c2_positional_fallback_overall :
    normalizeDefenseRanks (JVal.jarr [JVal.jobj
        [("teamAbbr", JVal.jstr "KC"), ("QB", JVal.jnum 10),
         ("RB", JVal.jnum 20), ("WR", JVal.jnum 5), ("TE", JVal.jnum 30)]])
      = [{ teamAbbr := "KC", overall := 14.5, QB := 10, RB := 20, WR := 5, TE := 30 }]
      ∧ cachedWeights.QB + cachedWeights.RB + cachedWeights.WR + cachedWeights.TE = 1 := by
  have hw : cachedWeights = { QB := 1/5, RB := 2/5, WR := 3/10, TE := 1/10 } := by
    norm_num [cachedWeights, resolveDefenseWeights, parseWeight, DEFAULT_WEIGHTS]
  have h1 : normalizeDefenseRanks (JVal.jarr [JVal.jobj
        [("teamAbbr", JVal.jstr "KC"), ("QB", JVal.jnum 10),
         ("RB", JVal.jnum 20), ("WR", JVal.jnum 5), ("TE", JVal.jnum 30)]])
      = [{ teamAbbr := "KC", overall := weightedOverall cachedWeights 10 20 5 30,
           QB := 10, RB := 20, WR := 5, TE := 30 }] := rfl
  have h2 : weightedOverall cachedWeights 10 20 5 30 = 14.5 := by
    rw [hw]; norm_num [weightedOverall]
  refine ⟨?_, ?_⟩
  · rw [h1, h2]
  · rw [hw]; norm_num
/-- C8: for every input payload, a record with no resolvable team code is
excluded from the normalizer's output — dropping it leaves the output
exactly that of the payload restricted to its resolvable records. -/
theorem c8_unresolvable_records_dropped (payload : JVal) :
    normalizeDefenseRanks payload
      = normalizeDefenseRows (((coerceArray payload).map rowFields).filter
          (fun r => (pickTeamAbbr r).isSome)) := by
  unfold normalizeDefenseRanks normalizeDefenseRows
  congr 1
  induction (coerceArray payload).map rowFields with
  | nil => rfl
  | cons r rs ih =>
    cases hr : pickTeamAbbr r with
    | none =>
      simp only [List.filterMap_cons, List.filter_cons, hr, Option.isSome_none,
        Bool.false_eq_true, if_false, normalizeDefenseRow, ih]
    | some a =>
      simp only [List.filterMap_cons, List.filter_cons, hr, Option.isSome_some,
        if_true, normalizeDefenseRow, ih]
/-- Characters of a quoted field body pass through the `quoted` mode
verbatim (commas included). -/
theorem csvAux_quoted_run (a : List Char) (ha : ∀ c ∈ a, c ≠ '"') :
    ∀ (s cur : List Char), csvAux (a ++ s) cur CsvMode.quoted
        = csvAux s (cur ++ a) CsvMode.quoted := by
  induction a with
  | nil => intro s cur; simp
  | cons c a' ih =>
    intro s cur
    have hc : c ≠ '"' := ha c (List.mem_cons_self c a')
    have ha' : ∀ d ∈ a', d ≠ '"' := fun d hd => ha d (List.mem_cons_of_mem c hd)
    calc csvAux ((c :: a') ++ s) cur CsvMode.quoted
        = csvAux (a' ++ s) (cur ++ [c]) CsvMode.quoted := by
          simp [csvAux, hc]
      _ = csvAux s ((cur ++ [c]) ++ a') CsvMode.quoted := ih ha' s (cur ++ [c])
      _ = csvAux s (cur ++ (c :: a')) CsvMode.quoted := by
          simp
/-- C9: the CSV splitter supports quoted fields.  A double-quoted field
may contain embedded commas, which do not split it (the remainder of the
line is split independently), and the escape sequence `\"\"` inside a quoted
field becomes a single `\"` in the parsed value. -/
theorem c9_quoted_fields (a b rest : List Char)
    (ha : ∀ c ∈ a, c ≠ '"') (hb : ∀ c ∈ b, c ≠ '"') :
    splitCsvLine (String.mk ('"' :: (a ++ ('"' :: ',' :: rest))))
        = trimS a :: splitCsvLine (String.mk rest) ∧
    splitCsvLine (String.mk ('"' :: (a ++ ('"' :: '"' :: (b ++ ['"'])))))
        = [trimS (a ++ '"' :: b)] := by
  constructor
  · show csvAux ('"' :: (a ++ ('"' :: ',' :: rest))) [] CsvMode.plain
        = trimS a :: csvAux rest [] CsvMode.plain
    calc csvAux ('"' :: (a ++ ('"' :: ',' :: rest))) [] CsvMode.plain
        = csvAux (a ++ ('"' :: ',' :: rest)) [] CsvMode.quoted := by
          simp [csvAux]
      _ = csvAux ('"' :: ',' :: rest) ([] ++ a) CsvMode.quoted :=
          csvAux_quoted_run a ha ('"' :: ',' :: rest) []
      _ = trimS a :: csvAux rest [] CsvMode.plain := by
          simp [csvAux]
  · show csvAux ('"' :: (a ++ ('"' :: '"' :: (b ++ ['"'])))) [] CsvMode.plain
        = [trimS (a ++ '"' :: b)]
    calc csvAux ('"' :: (a ++ ('"' :: '"' :: (b ++ ['"'])))) [] CsvMode.plain
        = csvAux (a ++ ('"' :: '"' :: (b ++ ['"']))) [] CsvMode.quoted := by
          simp [csvAux]
      _ = csvAux ('"' :: '"' :: (b ++ ['"'])) ([] ++ a) CsvMode.quoted :=
          csvAux_quoted_run a ha ('"' :: '"' :: (b ++ ['"'])) []
      _ = csvAux (b ++ ['"']) (([] ++ a) ++ ['"']) CsvMode.quoted := by
          simp [csvAux]
      _ = csvAux ['"'] ((([] ++ a) ++ ['"']) ++ b) CsvMode.quoted :=
          csvAux_quoted_run b hb ['"'] (([] ++ a) ++ ['"'])
      _ = [trimS (a ++ '"' :: b)] := by
          simp [csvAux]
/-- Witness for C9: the quoted field `"b,c"` with an embedded comma, and
the escaped field `"b,c""y"`. -/
theorem c9_quoted_fields_witness :
    (∀ c ∈ ['b', ',', 'c'], c ≠ '"') ∧ (∀ c ∈ ['y'], c ≠ '"') ∧
    (splitCsvLine (String.mk ('"' :: (['b', ',', 'c'] ++ ('"' :: ',' :: ['d']))))
        = trimS ['b', ',', 'c'] :: splitCsvLine (String.mk ['d']) ∧
      splitCsvLine (String.mk ('"' :: (['b', ',', 'c'] ++ ('"' :: '"' :: (['y'] ++ ['"'])))))
        = [trimS (['b', ',', 'c'] ++ '"' :: ['y'])]) :=
  ⟨by decide, by decide,
    c9_quoted_fields ['b', ',', 'c'] ['y'] ['d'] (by decide) (by decide)⟩
/-! ### Rounding lemmas and Claim C1 -/
theorem jsRoundInt_close (q : ℚ) : |(jsRoundInt q : ℚ) - q| ≤ 1/2 := by
  unfold jsRoundInt
  split
  · have h1 : ((⌊-q + 1/2⌋ : ℤ) : ℚ) ≤ -q + 1/2 := Int.floor_le _
    have h2 : -q + 1/2 < ⌊-q + 1/2⌋ + 1 := Int.lt_floor_add_one _
    rw [abs_le]
    push_cast
    constructor <;> linarith
  · have h1 : ((⌊q + 1/2⌋ : ℤ) : ℚ) ≤ q + 1/2 := Int.floor_le _
    have h2 : q + 1/2 < ⌊q + 1/2⌋ + 1 := Int.lt_floor_add_one _
    rw [abs_le]
    constructor <;> linarith
theorem jsRoundInt_neg (q : ℚ) : jsRoundInt (-q) = -jsRoundInt q := by
  unfold jsRoundInt
  rcases lt_trichotomy q 0 with h | h | h
  · rw [if_pos h, if_neg (by linarith : ¬(-q < 0))]
    simp
  · subst h
    norm_num
  · rw [if_neg (by linarith : ¬(q < 0)), if_pos (by linarith : -q < 0)]
    simp
/-- Since `toFixed` strips the sign before rounding, negation commutes
with the one-decimal rounding. -/
theorem jsToFixed1_neg (q : ℚ) : jsToFixed1 (-q) = -jsToFixed1 q := by
  unfold jsToFixed1
  rw [mul_neg, jsRoundInt_neg]
  push_cast
  ring
/-- Rounding the two implied halves and their sum independently to one
decimal place keeps the rounded halves within 0.1 of the rounded sum: the
three rounding errors total strictly less than 1.5 tenths and their
combination is an integer number of tenths. -/
theorem jsToFixed1_sum_close (a b : ℚ) :
    |jsToFixed1 a + jsToFixed1 b - jsToFixed1 (a + b)| ≤ 1/10 := by
  have ha := jsRoundInt_close (10 * a)
  have hb := jsRoundInt_close (10 * b)
  have hab := jsRoundInt_close (10 * (a + b))
  set k : ℤ := jsRoundInt (10 * a) + jsRoundInt (10 * b) - jsRoundInt (10 * (a + b))
    with hk
  have hkq : |(k : ℚ)| ≤ 3/2 := by
    rw [abs_le] at ha hb hab ⊢
    push_cast [hk]
    constructor <;> linarith
  have hk1 : |k| ≤ 1 := by
    have h2 : |(k : ℚ)| < 2 := lt_of_le_of_lt hkq (by norm_num)
    rw [← Int.cast_abs] at h2
    have h3 : |k| < 2 := by exact_mod_cast h2
    omega
  have heq : jsToFixed1 a + jsToFixed1 b - jsToFixed1 (a + b) = (k : ℚ) / 10 := by
    unfold jsToFixed1
    push_cast [hk]
    ring
  rw [heq, abs_div]
  have hkc : |(k : ℚ)| ≤ 1 := by
    rw [← Int.cast_abs]
    exact_mod_cast hk1
  rw [abs_of_pos (by norm_num : (0:ℚ) < 10)]
  linarith
/-- A competition whose home and away competitors are both found parses to
the `mkVegas` record. -/
theorem parseVegas_of_found (comp : Competition) (home away : Competitor)
    (hhome : comp.competitors.find? (fun x => x.homeAway == "home") = some home)
    (haway : comp.competitors.find? (fun x => x.homeAway == "away") = some away) :
    parseVegasForCompetition (some comp) = some (mkVegas comp home away) := by
  have hne : comp.competitors.isEmpty = false := by
    cases hcc : comp.competitors with
    | nil => rw [hcc] at hhome; simp [List.find?] at hhome
    | cons x xs => simp [List.isEmpty]
  unfold parseVegasForCompetition
  simp [hne, hhome, haway]
/-- C1: for every scoreboard game whose competition has both a home and an
away competitor (with distinct, non-empty team codes), the two per-team
market contexts built by the resolver satisfy
`impliedTotal(home) + impliedTotal(away) == overUnder` within 0.1 and
`spread(home) == -spread(away)`. -/
theorem c1_implied_totals_and_spreads (ev : Event) (comp : Competition)
    (home away : Competitor) (hRaw aRaw : String)
    (hc : ev.competitions.head? = some comp)
    (hhome : comp.competitors.find? (fun x => x.homeAway == "home") = some home)
    (haway : comp.competitors.find? (fun x => x.homeAway == "away") = some away)
    (hhab : home.abbreviation = some hRaw)
    (haab : away.abbreviation = some aRaw)
    (hne : strUpper hRaw ≠ strUpper aRaw)
    (hh0 : strUpper hRaw ≠ "") (ha0 : strUpper aRaw ≠ "") :
    ∃ ch ca,
      ctxLookup (buildTeamContexts [ev]) (strUpper hRaw) = some ch ∧
      ctxLookup (buildTeamContexts [ev]) (strUpper aRaw) = some ca ∧
      (∃ ih ia, ch.impliedTotal = some ih ∧ ca.impliedTotal = some ia ∧
        |ih + ia - ch.overUnder| ≤ 1/10) ∧
      ch.spread = -ca.spread := by
  have hp := parseVegas_of_found comp home away hhome haway
  have habbrH : (mkVegas comp home away).home.abbr = some (strUpper hRaw) := by
    simp [mkVegas, hhab]
  have habbrA : (mkVegas comp home away).away.abbr = some (strUpper aRaw) := by
    simp [mkVegas, haab]
  have hb : (strUpper hRaw != "" && strUpper aRaw != "") = true := by
    simp [hh0, ha0]
  have hctx : buildTeamContexts [ev]
      = [(strUpper aRaw, mkContext (mkVegas comp home away) ev.date
            (mkVegas comp home away).away (mkVegas comp home away).home
            (strUpper aRaw) (strUpper hRaw)),
         (strUpper hRaw, mkContext (mkVegas comp home away) ev.date
            (mkVegas comp home away).home (mkVegas comp home away).away
            (strUpper hRaw) (strUpper aRaw))] := by
    unfold buildTeamContexts
    simp only [List.foldl, hc, hp, habbrH, habbrA, hb, if_true]
  have hneq1 : (strUpper aRaw == strUpper hRaw) = false :=
    beq_eq_false_iff_ne.mpr (Ne.symm hne)
  have hneq2 : (strUpper hRaw == strUpper aRaw) = false :=
    beq_eq_false_iff_ne.mpr hne
  refine ⟨mkContext (mkVegas comp home away) ev.date
      (mkVegas comp home away).home (mkVegas comp home away).away
      (strUpper hRaw) (strUpper aRaw),
    mkContext (mkVegas comp home away) ev.date
      (mkVegas comp home away).away (mkVegas comp home away).home
      (strUpper aRaw) (strUpper hRaw), ?_, ?_, ?_, ?_⟩
  · rw [hctx]
    simp [ctxLookup, List.find?, hneq1]
  · rw [hctx]
    simp [ctxLookup, List.find?, hneq2]
  · refine ⟨jsToFixed1 (vegasTotal comp / 2 - vegasSignedSpread comp home away / 2),
      jsToFixed1 (vegasTotal comp / 2 + vegasSignedSpread comp home away / 2),
      rfl, rfl, ?_⟩
    have h := jsToFixed1_sum_close
      (vegasTotal comp / 2 - vegasSignedSpread comp home away / 2)
      (vegasTotal comp / 2 + vegasSignedSpread comp home away / 2)
    rw [show (vegasTotal comp / 2 - vegasSignedSpread comp home away / 2)
          + (vegasTotal comp / 2 + vegasSignedSpread comp home away / 2)
        = vegasTotal comp by ring] at h
    exact h
  · show jsToFixed1 (vegasSignedSpread comp home away)
        = -jsToFixed1 (-vegasSignedSpread comp home away)
    rw [jsToFixed1_neg, neg_neg]
/-- Witness for C1: a game KC (home) vs BUF (away) with over/under 46.5
and odds details "KC -3.5". -/
theorem c1_implied_totals_and_spreads_witness :
    ((Event.mk [Competition.mk
          [Competitor.mk "home" (some "KC"), Competitor.mk "away" (some "BUF")]
          [OddsBlock.mk (some (JVal.jnum 46.5)) (some "KC -3.5") none]
          none none []] none).competitions.head?
        = some (Competition.mk
          [Competitor.mk "home" (some "KC"), Competitor.mk "away" (some "BUF")]
          [OddsBlock.mk (some (JVal.jnum 46.5)) (some "KC -3.5") none]
          none none [])) ∧
    strUpper "KC" ≠ strUpper "BUF" ∧ strUpper "KC" ≠ "" ∧ strUpper "BUF" ≠ "" ∧
    (∃ ch ca,
      ctxLookup (buildTeamContexts [Event.mk [Competition.mk
          [Competitor.mk "home" (some "KC"), Competitor.mk "away" (some "BUF")]
          [OddsBlock.mk (some (JVal.jnum 46.5)) (some "KC -3.5") none]
          none none []] none]) (strUpper "KC") = some ch ∧
      ctxLookup (buildTeamContexts [Event.mk [Competition.mk
          [Competitor.mk "home" (some "KC"), Competitor.mk "away" (some "BUF")]
          [OddsBlock.mk (some (JVal.jnum 46.5)) (some "KC -3.5") none]
          none none []] none]) (strUpper "BUF") = some ca ∧
      (∃ ih ia, ch.impliedTotal = some ih ∧ ca.impliedTotal = some ia ∧
        |ih + ia - ch.overUnder| ≤ 1/10) ∧
      ch.spread = -ca.spread) :=
  ⟨rfl, by decide, by decide, by decide,
    c1_implied_totals_and_spreads
      (Event.mk [Competition.mk
        [Competitor.mk "home" (some "KC"), Competitor.mk "away" (some "BUF")]
        [OddsBlock.mk (some (JVal.jnum 46.5)) (some "KC -3.5") none]
        none none []] none)
      (Competition.mk
        [Competitor.mk "home" (some "KC"), Competitor.mk "away" (some "BUF")]
        [OddsBlock.mk (some (JVal.jnum 46.5)) (some "KC -3.5") none]
        none none [])
      (Competitor.mk "home" (some "KC")) (Competitor.mk "away" (some "BUF"))
      "KC" "BUF" rfl rfl rfl rfl rfl (by decide) (by decide) (by decide)⟩
/-! ### Claim C3 — games without an odds block -/
/-- Integers round to themselves. -/
theorem jsRoundInt_intCast (k : ℤ) : jsRoundInt (k : ℚ) = k := by
  unfold jsRoundInt
  split
  · have hf : ⌊-(k : ℚ) + 1/2⌋ = -k := by
      rw [Int.floor_eq_iff]
      push_cast
      constructor <;> linarith
    rw [hf, neg_neg]
  · have hf : ⌊(k : ℚ) + 1/2⌋ = k := by
      rw [Int.floor_eq_iff]
      constructor <;> linarith
    exact hf
/-- A value that is already a whole number of tenths is a fixed point of
the one-decimal rounding. -/
theorem jsToFixed1_tenths (k : ℤ) : jsToFixed1 ((k : ℚ) / 10) = (k : ℚ) / 10 := by
  unfold jsToFixed1
  rw [show (10 : ℚ) * ((k : ℚ) / 10) = (k : ℚ) by ring, jsRoundInt_intCast]
theorem jsToFixed1_45 : jsToFixed1 45 = 45 := by
  rw [show (45 : ℚ) = ((450 : ℤ) : ℚ) / 10 by norm_num, jsToFixed1_tenths]
theorem jsToFixed1_zero : jsToFixed1 0 = 0 := by
  rw [show (0 : ℚ) = ((0 : ℤ) : ℚ) / 10 by norm_num, jsToFixed1_tenths]
theorem jsToFixed1_half45 : jsToFixed1 (45 / 2) = 45 / 2 := by
  rw [show (45 : ℚ) / 2 = ((225 : ℤ) : ℚ) / 10 by norm_num, jsToFixed1_tenths]
/-- C3 as stated is false: a game whose competition has both competitors
but no odds block is not skipped — the resolver produces a market context
for each of its teams, with the total defaulted to 45 and spread 0. -/
theorem c3_counterexample :
    ∃ ch ca,
      ctxLookup (buildTeamContexts [Event.mk [Competition.mk
          [Competitor.mk "home" (some "KC"), Competitor.mk "away" (some "BUF")]
          [] none none []] none]) "KC" = some ch ∧
      ctxLookup (buildTeamContexts [Event.mk [Competition.mk
          [Competitor.mk "home" (some "KC"), Competitor.mk "away" (some "BUF")]
          [] none none []] none]) "BUF" = some ca ∧
      ch.overUnder = 45 ∧ ch.spread = 0 ∧ ch.impliedTotal = some (45 / 2) := by
  refine ⟨_, _, rfl, rfl, ?_, ?_, ?_⟩
  · exact jsToFixed1_45
  · exact jsToFixed1_zero
  · show some (jsToFixed1 ((45 : ℚ) / 2 - 0 / 2)) = some ((45 : ℚ) / 2)
    rw [show (45 : ℚ) / 2 - 0 / 2 = 45 / 2 by norm_num, jsToFixed1_half45]
/-- C3 (amended): a scoreboard game whose competition lacks an odds block
is not skipped — the resolver still produces a market context record for
each of its two teams, with the over/under defaulted to the league-average
45, spread 0 and implied totals 22.5; a game is skipped only when the
home or away competitor is missing. -/
theorem c3_no_odds_defaults (ev : Event) (comp : Competition)
    (home away : Competitor) (hRaw aRaw : String)
    (hc : ev.competitions.head? = some comp)
    (hodds : comp.odds = [])
    (hhome : comp.competitors.find? (fun x => x.homeAway == "home") = some home)
    (haway : comp.competitors.find? (fun x => x.homeAway == "away") = some away)
    (hhab : home.abbreviation = some hRaw)
    (haab : away.abbreviation = some aRaw)
    (hne : strUpper hRaw ≠ strUpper aRaw)
    (hh0 : strUpper hRaw ≠ "") (ha0 : strUpper aRaw ≠ "") :
    ∃ ch ca,
      ctxLookup (buildTeamContexts [ev]) (strUpper hRaw) = some ch ∧
      ctxLookup (buildTeamContexts [ev]) (strUpper aRaw) = some ca ∧
      ch.overUnder = 45 ∧ ca.overUnder = 45 ∧
      ch.spread = 0 ∧ ca.spread = 0 ∧
      ch.impliedTotal = some (45 / 2) ∧ ca.impliedTotal = some (45 / 2) := by
  have hp := parseVegas_of_found comp home away hhome haway
  have habbrH : (mkVegas comp home away).home.abbr = some (strUpper hRaw) := by
    simp [mkVegas, hhab]
  have habbrA : (mkVegas comp home away).away.abbr = some (strUpper aRaw) := by
    simp [mkVegas, haab]
  have hb : (strUpper hRaw != "" && strUpper aRaw != "") = true := by
    simp [hh0, ha0]
  have hctx : buildTeamContexts [ev]
      = [(strUpper aRaw, mkContext (mkVegas comp home away) ev.date
            (mkVegas comp home away).away (mkVegas comp home away).home
            (strUpper aRaw) (strUpper hRaw)),
         (strUpper hRaw, mkContext (mkVegas comp home away) ev.date
            (mkVegas comp home away).home (mkVegas comp home away).away
            (strUpper hRaw) (strUpper aRaw))] := by
    unfold buildTeamContexts
    simp only [List.foldl, hc, hp, habbrH, habbrA, hb, if_true]
  have hneq1 : (strUpper aRaw == strUpper hRaw) = false :=
    beq_eq_false_iff_ne.mpr (Ne.symm hne)
  have hneq2 : (strUpper hRaw == strUpper aRaw) = false :=
    beq_eq_false_iff_ne.mpr hne
  have ht : vegasTotal comp = 45 := by
    unfold vegasTotal vegasOdds
    rw [hodds]
    rfl
  have hdt : vegasDetailTokens comp = [] := by
    unfold vegasDetailTokens vegasOdds
    rw [hodds]
    rfl
  have hfav : vegasFavoredToken comp = none := by
    unfold vegasFavoredToken
    rw [hdt]
    rfl
  have hss : vegasSignedSpread comp home away = 0 := by
    unfold vegasSignedSpread
    rw [hfav]
  refine ⟨mkContext (mkVegas comp home away) ev.date
      (mkVegas comp home away).home (mkVegas comp home away).away
      (strUpper hRaw) (strUpper aRaw),
    mkContext (mkVegas comp home away) ev.date
      (mkVegas comp home away).away (mkVegas comp home away).home
      (strUpper aRaw) (strUpper hRaw), ?_, ?_, ?_, ?_, ?_, ?_, ?_, ?_⟩
  · rw [hctx]
    simp [ctxLookup, List.find?, hneq1]
  · rw [hctx]
    simp [ctxLookup, List.find?, hneq2]
  · show jsToFixed1 (vegasTotal comp) = 45
    rw [ht, jsToFixed1_45]
  · show jsToFixed1 (vegasTotal comp) = 45
    rw [ht, jsToFixed1_45]
  · show jsToFixed1 (vegasSignedSpread comp home away) = 0
    rw [hss, jsToFixed1_zero]
  · show jsToFixed1 (-vegasSignedSpread comp home away) = 0
    rw [hss, neg_zero, jsToFixed1_zero]
  · show some (jsToFixed1 (vegasTotal comp / 2 - vegasSignedSpread comp home away / 2))
        = some ((45 : ℚ) / 2)
    rw [ht, hss, show (45 : ℚ) / 2 - 0 / 2 = 45 / 2 by norm_num, jsToFixed1_half45]
  · show some (jsToFixed1 (vegasTotal comp / 2 + vegasSignedSpread comp home away / 2))
        = some ((45 : ℚ) / 2)
    rw [ht, hss, show (45 : ℚ) / 2 + 0 / 2 = 45 / 2 by norm_num, jsToFixed1_half45]
/-- Witness for the amended C3: the KC vs BUF game with no odds block. -/
theorem c3_no_odds_defaults_witness :
    ((Event.mk [Competition.mk
        [Competitor.mk "home" (some "KC"), Competitor.mk "away" (some "BUF")]
        [] none none []] none).competitions.head?
      = some (Competition.mk
        [Competitor.mk "home" (some "KC"), Competitor.mk "away" (some "BUF")]
        [] none none [])) ∧
    strUpper "KC" ≠ strUpper "BUF" ∧ strUpper "KC" ≠ "" ∧ strUpper "BUF" ≠ "" ∧
    (∃ ch ca,
      ctxLookup (buildTeamContexts [Event.mk [Competition.mk
          [Competitor.mk "home" (some "KC"), Competitor.mk "away" (some "BUF")]
          [] none none []] none]) (strUpper "KC") = some ch ∧
      ctxLookup (buildTeamContexts [Event.mk [Competition.mk
          [Competitor.mk "home" (some "KC"), Competitor.mk "away" (some "BUF")]
          [] none none []] none]) (strUpper "BUF") = some ca ∧
      ch.overUnder = 45 ∧ ca.overUnder = 45 ∧
      ch.spread = 0 ∧ ca.spread = 0 ∧
      ch.impliedTotal = some (45 / 2) ∧ ca.impliedTotal = some (45 / 2)) :=
  ⟨rfl, by decide, by decide, by decide,
    c3_no_odds_defaults
      (Event.mk [Competition.mk
        [Competitor.mk "home" (some "KC"), Competitor.mk "away" (some "BUF")]
        [] none none []] none)
      (Competition.mk
        [Competitor.mk "home" (some "KC"), Competitor.mk "away" (some "BUF")]
        [] none none [])
      (Competitor.mk "home" (some "KC")) (Competitor.mk "away" (some "BUF"))
      "KC" "BUF" rfl rfl rfl rfl rfl rfl (by decide) (by decide) (by decide)⟩
/-- A scored entry of value 3 heads the bucket ordering whenever every
other entry scores at most 2. -/
theorem scoreBuckets_cons_top (A B : List (DirEntry × ℕ)) (p : DirEntry × ℕ)
    (hA : ∀ e ∈ A, e.2 ≤ 2) (hB : ∀ e ∈ B, e.2 ≤ 2) (hp : p.2 = 3) :
    ∃ rest, scoreBuckets (A ++ p :: B) = p :: rest := by
  have h5A : A.filter (fun e => e.2 == 5) = [] :=
    List.filter_eq_nil_iff.mpr (fun e he => by have := hA e he; simp; omega)
  have h5B : B.filter (fun e => e.2 == 5) = [] :=
    List.filter_eq_nil_iff.mpr (fun e he => by have := hB e he; simp; omega)
  have h4A : A.filter (fun e => e.2 == 4) = [] :=
    List.filter_eq_nil_iff.mpr (fun e he => by have := hA e he; simp; omega)
  have h4B : B.filter (fun e => e.2 == 4) = [] :=
    List.filter_eq_nil_iff.mpr (fun e he => by have := hB e he; simp; omega)
  have h3A : A.filter (fun e => e.2 == 3) = [] :=
    List.filter_eq_nil_iff.mpr (fun e he => by have := hA e he; simp; omega)
  have h3B : B.filter (fun e => e.2 == 3) = [] :=
    List.filter_eq_nil_iff.mpr (fun e he => by have := hB e he; simp; omega)
  refine ⟨B.filter (fun e => e.2 == 3) ++
    ((A ++ p :: B).filter (fun e => e.2 == 2) ++
      (A ++ p :: B).filter (fun e => e.2 == 1)), ?_⟩
  unfold scoreBuckets
  rw [List.filter_append, List.filter_append, List.filter_append,
    List.filter_cons, List.filter_cons, List.filter_cons]
  simp only [hp, h5A, h5B, h4A, h4B, h3A]
  norm_num
/-! ### Claim C6 — player matcher on "mahomes" -/
/-- C6 as stated is false: against a directory holding "Patrick Mahomes"
(and an unrelated player containing "mahomes" only as an internal
substring), the query "mahomes" returns Patrick Mahomes on top with score
3 — a last-name prefix match — not score 4, because "patrick mahomes"
does not start with "mahomes". -/
theorem c6_counterexample :
    (rankPlayerMatches
        [DirEntry.mk "9999" "Joe Smahomester" "DEN" "WR" "joe smahomester" "smahomester",
         patrickMahomesEntry] "mahomes" 5).head?
      = some (patrickMahomesEntry, 3) ∧
    ¬ ((rankPlayerMatches
        [DirEntry.mk "9999" "Joe Smahomester" "DEN" "WR" "joe smahomester" "smahomester",
         patrickMahomesEntry] "mahomes" 5).head?.map (fun e => e.2) = some 4) := by
  constructor <;> decide
/-- C6 (amended): running the player matcher with query "mahomes" against
a directory containing the "Patrick Mahomes" entry returns that entry as
the top match with score 3 (prefix match on the last name), ranking it
above any unrelated player whose directory entry merely contains
"mahomes" as a substring elsewhere (such entries score at most 2). -/
theorem c6_mahomes_top_match (pre post : List DirEntry) (limit : ℕ)
    (hothers : ∀ e ∈ pre ++ post, matchScore "mahomes" ["mahomes"] e ≤ 2) :
    (rankPlayerMatches (pre ++ patrickMahomesEntry :: post) "mahomes"
        (limit + 1)).head?
      = some (patrickMahomesEntry, 3) := by
  have hpre : ∀ e ∈ pre, matchScore "mahomes" ["mahomes"] e ≤ 2 :=
    fun e he => hothers e (List.mem_append_left _ he)
  have hpost : ∀ e ∈ post, matchScore "mahomes" ["mahomes"] e ≤ 2 :=
    fun e he => hothers e (List.mem_append_right _ he)
  unfold rankPlayerMatches
  rw [show strLower "mahomes" = "mahomes" from rfl,
    show splitWs "mahomes" = ["mahomes"] from rfl]
  have key : ((pre ++ patrickMahomesEntry :: post).map (fun p =>
        (p, matchScore "mahomes" ["mahomes"] p))).filter (fun e => 0 < e.2)
      = ((pre.map (fun p => (p, matchScore "mahomes" ["mahomes"] p))).filter
          (fun e => 0 < e.2))
        ++ (patrickMahomesEntry, 3)
        :: ((post.map (fun p => (p, matchScore "mahomes" ["mahomes"] p))).filter
          (fun e => 0 < e.2)) := by
    rw [List.map_append, List.map_cons, List.filter_append, List.filter_cons]
    rw [show matchScore "mahomes" ["mahomes"] patrickMahomesEntry = 3 from rfl]
    norm_num
  rw [key]
  have hA : ∀ e ∈ (pre.map (fun p =>
      (p, matchScore "mahomes" ["mahomes"] p))).filter (fun e => 0 < e.2),
      e.2 ≤ 2 := by
    intro e he
    obtain ⟨x, hx, rfl⟩ := List.mem_map.mp (List.mem_of_mem_filter he)
    exact hpre x hx
  have hB : ∀ e ∈ (post.map (fun p =>
      (p, matchScore "mahomes" ["mahomes"] p))).filter (fun e => 0 < e.2),
      e.2 ≤ 2 := by
    intro e he
    obtain ⟨x, hx, rfl⟩ := List.mem_map.mp (List.mem_of_mem_filter he)
    exact hpost x hx
  obtain ⟨rest, hr⟩ := scoreBuckets_cons_top _ _ (patrickMahomesEntry, 3) hA hB rfl
  rw [hr]
  simp
/-- Witness for the amended C6: the directory of the counterexample — the
unrelated substring-only player scores 2, below Patrick Mahomes. -/
theorem c6_mahomes_top_match_witness :
    (∀ e ∈ [DirEntry.mk "9999" "Joe Smahomester" "DEN" "WR" "joe smahomester"
        "smahomester"] ++ ([] : List DirEntry),
      matchScore "mahomes" ["mahomes"] e ≤ 2) ∧
    (rankPlayerMatches
        ([DirEntry.mk "9999" "Joe Smahomester" "DEN" "WR" "joe smahomester"
          "smahomester"] ++ patrickMahomesEntry :: []) "mahomes" (4 + 1)).head?
      = some (patrickMahomesEntry, 3) :=
  ⟨by decide,
    c6_mahomes_top_match
      [DirEntry.mk "9999" "Joe Smahomester" "DEN" "WR" "joe smahomester"
        "smahomester"] [] 4 (by decide)⟩
/-! ### Claim C7 — score bounds and the all-zero baseline -/
theorem clamp_bounds (s lo hi : ℚ) (h : lo ≤ hi) :
    lo ≤ clamp s lo hi ∧ clamp s lo hi ≤ hi :=
  ⟨le_min (le_max_right s lo) h, min_le_right _ _⟩
theorem jsToFixed1_bounds (q : ℚ) (h0 : 0 ≤ q) (h100 : q ≤ 100) :
    0 ≤ jsToFixed1 q ∧ jsToFixed1 q ≤ 100 := by
  unfold jsToFixed1 jsRoundInt
  have hng : ¬(10 * q < 0) := by linarith
  rw [if_neg hng]
  constructor
  · have hf : (0 : ℤ) ≤ ⌊10 * q + 1/2⌋ := Int.floor_nonneg.mpr (by linarith)
    have : (0 : ℚ) ≤ (⌊10 * q + 1/2⌋ : ℚ) := by exact_mod_cast hf
    linarith
  · have hle : ⌊10 * q + 1/2⌋ ≤ ⌊(2001 : ℚ) / 2⌋ := Int.floor_le_floor (by linarith)
    have h2 : ⌊(2001 : ℚ) / 2⌋ = 1000 := by norm_num
    rw [h2] at hle
    have : ((⌊10 * q + 1/2⌋ : ℤ) : ℚ) ≤ 1000 := by exact_mod_cast hle
    linarith
/-- Every `calcScore` result is a clamped-and-rounded value. -/
theorem calcScore_shape (mode : ViewMode) (p : ScoredPlayer) :
    ∃ s, calcScore mode p = jsToFixed1 (clamp s 0 100) :=
  ⟨_, rfl⟩
/-- C7: for every player record and context, the composite score lies in
[0, 100] and is a whole number of tenths (rounded to one decimal place);
feeding all-zero stats with the default context yields the deterministic
finite baseline score 4.3.  (The source's coercion of a non-finite result
to 0 is vacuous over exact rationals, which carry no NaN or infinity.) -/
theorem c7_score_bounded_rounded_baseline :
    (∀ (mode : ViewMode) (p : ScoredPlayer),
        0 ≤ calcScore mode p ∧ calcScore mode p ≤ 100 ∧
        ∃ k : ℤ, calcScore mode p = (k : ℚ) / 10) ∧
      calcScore ViewMode.week baselineAllZeroWR = 43 / 10 := by
  constructor
  · intro mode p
    obtain ⟨s, hs⟩ := calcScore_shape mode p
    obtain ⟨hl, hr⟩ := clamp_bounds s 0 100 (by norm_num)
    obtain ⟨hb0, hb100⟩ := jsToFixed1_bounds (clamp s 0 100) hl hr
    rw [hs]
    exact ⟨hb0, hb100, jsRoundInt (10 * clamp s 0 100), rfl⟩
  · have s01 : ∀ b, applyStat b "Routes (Last 3)" 0
        = addToBucket b Bucket.opportunity
          (normalizeStatValue 0 (some NormMode.routes) * 0.12) := fun _ => rfl
    have s02 : ∀ b, applyStat b "TPRR (Targets per Route Run)" 0
        = addToBucket b Bucket.efficiency
          (normalizeStatValue 0 (some NormMode.percent) * 55) := fun _ => rfl
    have s03 : ∀ b, applyStat b "Targets (Last 3)" 0
        = addToBucket b Bucket.opportunity
          (normalizeStatValue 0 none * 0.35) := fun _ => rfl
    have s04 : ∀ b, applyStat b "Catchable Targets (Last 3)" 0
        = addToBucket b Bucket.opportunity
          (normalizeStatValue 0 none * 0.35) := fun _ => rfl
    have s05 : ∀ b, applyStat b "ADOT (Last 3)" 0
        = addToBucket b Bucket.efficiency
          (normalizeStatValue 0 none * 0.18) := fun _ => rfl
    have s06 : ∀ b, applyStat b "Air Yards (Last 3)" 0
        = addToBucket b Bucket.efficiency
          (normalizeStatValue 0 (some NormMode.yards) * 0.06) := fun _ => rfl
    have s07 : ∀ b, applyStat b "EZ Targets (Last 3)" 0
        = addToBucket b Bucket.opportunity
          (normalizeStatValue 0 none * 0.35) := fun _ => rfl
    have s08 : ∀ b, applyStat b "3rd/4th Down Targets (Last 3)" 0
        = addToBucket b Bucket.opportunity
          (normalizeStatValue 0 none * 0.35) := fun _ => rfl
    have s09 : ∀ b, applyStat b "Play-Action Targets (Last 3)" 0
        = addToBucket b Bucket.opportunity
          (normalizeStatValue 0 none * 0.35) := fun _ => rfl
    have s10 : ∀ b, applyStat b "Unrealized Air Yards (Last 3)" 0
        = addToBucket b Bucket.efficiency
          (normalizeStatValue 0 (some NormMode.yards) * 0.06) := fun _ => rfl
    have s11 : ∀ b, applyStat b "PPR (Last 3)" 0
        = addToBucket b Bucket.production
          (normalizeStatValue 0 none * 2.2) := fun _ => rfl
    have s12 : ∀ b, applyStat b "PPR Rank (Last 3)" 0
        = addToBucket b Bucket.production
          (max 0 (1 - normalizeStatValue 0 none / 100) * 18) := fun _ => rfl
    have hb : calcBuckets baselineAllZeroWR.stats = ⟨0, 0, 0, 18⟩ := by
      show List.foldl (fun (b : Buckets) (kv : String × ℚ) => applyStat b kv.1 kv.2)
          ⟨0, 0, 0, 0⟩ baselineAllZeroWR.stats = ⟨0, 0, 0, 18⟩
      simp only [baselineAllZeroWR, List.foldl_cons, List.foldl_nil]
      rw [s01, s02, s03, s04, s05, s06, s07, s08, s09, s10, s11, s12]
      simp only [addToBucket, normalizeStatValue, Buckets.mk.injEq]
      norm_num
    unfold calcScore
    rw [hb]
    rw [show baselineAllZeroWR.impliedTotal = some 22 from rfl,
      show baselineAllZeroWR.overUnder = none from rfl,
      show baselineAllZeroWR.spread = none from rfl,
      show baselineAllZeroWR.defRank = some 16 from rfl,
      show extractRainChance baselineAllZeroWR.weather = none from rfl,
      show extractTempF baselineAllZeroWR.weather = none from rfl,
      show baselineAllZeroWR.position = "WR" from rfl,
      show positionMultiplier "WR" = 1 from rfl]
    norm_num [clamp, max_def, min_def, BUCKET_WEIGHTS, BUCKET_NORMALIZERS,
      DEFAULT_TEAM_TOTAL, DEFAULT_DEF_RANK]
    unfold jsToFixed1 jsRoundInt
    norm_num
